import Mathlib

/-!
Verification of the orchestration pipeline of src/app.py (Elkheta Video
Summarizer, a Streamlit app).

The embedding models the five-stage pipeline as pure functions over an
environment Env of external collaborators (yt-dlp, HTTP, ffmpeg, whisper,
langdetect, the Anthropic API, the file system), each call recorded as an
Event in a trace. UI progress bars and display cosmetics are excluded,
matching the scope of the specification. Python truthiness tests on strings
and optional strings (if video_path, if transcript, if structured_content)
are modelled by pyTruthyOpt. The standard library calls json.loads and
json.dumps are modelled by an executable JSON parser and serializer over the
Json type below; numbers are modelled as exact integers (float literals fall
outside the modelled grammar) and object member lists keep order and
duplicates. The missing API key case ends the script via st.stop after an
error message, which at trace level coincides with returning a null result,
and is modelled that way. The source defines transcribe_video twice; the
first definition (src/app.py lines 119-160, with audio verification and
audio extraction) is shadowed by the second (lines 163-177), which is the
one the form handler calls. Both are modelled: transcribe_video_v1 is the
shadowed verification variant, transcribe_video the active one.
-/


/-- Values of the JSON fragment modelled for json.loads and json.dumps:
numbers are exact integers, objects keep member order and duplicates. -/
inductive Json where
  | null
  | bool (b : Bool)
  | num (n : Int)
  | str (s : String)
  | arr (elems : List Json)
  | obj (members : List (String × Json))

def jIsSpace (c : Char) : Bool := c == ' ' || c == '\n' || c == '\t' || c == '\r'

def jIsDigit (c : Char) : Bool := 48 ≤ c.toNat && c.toNat ≤ 57

def jSkip : List Char → List Char
  | c :: cs => if jIsSpace c then jSkip cs else c :: cs
  | [] => []

def jDigits : List Char → List Char × List Char
  | c :: cs =>
    if jIsDigit c then
      let p := jDigits cs
      (c :: p.1, p.2)
    else ([], c :: cs)
  | [] => ([], [])

def jDigitsVal (ds : List Char) : Nat :=
  ds.foldl (fun a c => a * 10 + (c.toNat - 48)) 0

def jUnescape (e : Char) : Option Char :=
  if e = 'n' then some '\n'
  else if e = 't' then some '\t'
  else if e = 'r' then some '\r'
  else if e = '"' then some '"'
  else if e = '\\' then some '\\'
  else if e = '/' then some '/'
  else none

def jReadStr (acc : List Char) : List Char → Option (String × List Char)
  | [] => none
  | c :: rest =>
    if c = '"' then some (String.mk acc.reverse, rest)
    else if c = '\\' then
      match rest with
      | [] => none
      | e :: rest2 =>
        match jUnescape e with
        | some c2 => jReadStr (c2 :: acc) rest2
        | none => none
    else jReadStr (c :: acc) rest

def jNumEnd : List Char → Bool
  | c :: _ => !(jIsDigit c || c == '.' || c == 'e' || c == 'E')
  | [] => true

def jReadNum : List Char → Option (Int × List Char)
  | [] => none
  | c :: r =>
    if c = '-' then
      let p := jDigits r
      if p.1 = [] then none
      else if jNumEnd p.2 then some (-(jDigitsVal p.1 : Int), p.2) else none
    else
      let p := jDigits (c :: r)
      if p.1 = [] then none
      else if jNumEnd p.2 then some ((jDigitsVal p.1 : Int), p.2) else none

mutual
def parseV : Nat → List Char → Option (Json × List Char)
  | 0, _ => none
  | fuel + 1, cs =>
    match jSkip cs with
    | [] => none
    | c :: r =>
      if c = 'n' then
        match r with
        | 'u' :: 'l' :: 'l' :: r2 => some (.null, r2)
        | _ => none
      else if c = 't' then
        match r with
        | 'r' :: 'u' :: 'e' :: r2 => some (.bool true, r2)
        | _ => none
      else if c = 'f' then
        match r with
        | 'a' :: 'l' :: 's' :: 'e' :: r2 => some (.bool false, r2)
        | _ => none
      else if c = '"' then
        match jReadStr [] r with
        | some (s, r2) => some (.str s, r2)
        | none => none
      else if c = '[' then
        match jSkip r with
        | [] => none
        | c2 :: r2 =>
          if c2 = ']' then some (.arr [], r2)
          else
            match parseItems fuel (c2 :: r2) with
            | some (xs, r3) => some (.arr xs, r3)
            | none => none
      else if c = '\x7b' then
        match jSkip r with
        | [] => none
        | c2 :: r2 =>
          if c2 = '\x7d' then some (.obj [], r2)
          else
            match parseFields fuel (c2 :: r2) with
            | some (ms, r3) => some (.obj ms, r3)
            | none => none
      else
        match jReadNum (c :: r) with
        | some (n, r2) => some (.num n, r2)
        | none => none

def parseItems : Nat → List Char → Option (List Json × List Char)
  | 0, _ => none
  | fuel + 1, cs =>
    match parseV fuel cs with
    | some (j, r) =>
      match jSkip r with
      | ',' :: r2 =>
        match parseItems fuel r2 with
        | some (xs, r3) => some (j :: xs, r3)
        | none => none
      | ']' :: r2 => some ([j], r2)
      | _ => none
    | none => none

def parseFields : Nat → List Char → Option (List (String × Json) × List Char)
  | 0, _ => none
  | fuel + 1, cs =>
    match jSkip cs with
    | '"' :: r =>
      match jReadStr [] r with
      | some (k, r2) =>
        match jSkip r2 with
        | ':' :: r3 =>
          match parseV fuel r3 with
          | some (v, r4) =>
            match jSkip r4 with
            | ',' :: r5 =>
              match parseFields fuel r5 with
              | some (ms, r6) => some ((k, v) :: ms, r6)
              | none => none
            | '\x7d' :: r5 => some ([(k, v)], r5)
            | _ => none
          | none => none
        | _ => none
      | none => none
    | _ => none
end

/-- Model of json.loads as called by format_for_animation (src/app.py:230):
a fuel-driven recursive-descent parse of the whole string, null on any parse
error. Fuel 2 * length + 2 always suffices (each two recursion steps consume
at least one character). -/
def Json.loads (s : String) : Option Json :=
  match parseV (2 * s.length + 2) s.data with
  | some (j, rest) => if jSkip rest = [] then some j else none
  | none => none

def jEscape (c : Char) : List Char :=
  if c = '"' then ['\\', '"']
  else if c = '\\' then ['\\', '\\']
  else if c = '\n' then ['\\', 'n']
  else if c = '\t' then ['\\', 't']
  else if c = '\r' then ['\\', 'r']
  else [c]

def jStrBody (cs : List Char) : List Char :=
  cs.foldr (fun c acc => jEscape c ++ acc) []

def jStrChars (s : String) : List Char :=
  '"' :: (jStrBody s.data ++ ['"'])

def natDigitsAux (n : Nat) (acc : List Char) : List Char :=
  if n < 10 then Char.ofNat (48 + n) :: acc
  else natDigitsAux (n / 10) (Char.ofNat (48 + n % 10) :: acc)
termination_by n
decreasing_by exact Nat.div_lt_self (by omega) (by omega)

def intChars (i : Int) : List Char :=
  if i < 0 then '-' :: natDigitsAux i.natAbs [] else natDigitsAux i.natAbs []

mutual
def dumpsV : Json → List Char
  | .null => "null".data
  | .bool b => (if b then "true" else "false").data
  | .num n => intChars n
  | .str s => jStrChars s
  | .arr [] => ['[', ']']
  | .arr (x :: xs) => '[' :: dumpsItems x xs
  | .obj [] => ['\x7b', '\x7d']
  | .obj ((k, v) :: ms) => '\x7b' :: dumpsFields k v ms
termination_by j => sizeOf j

def dumpsItems : Json → List Json → List Char
  | x, [] => dumpsV x ++ [']']
  | x, y :: ys => dumpsV x ++ ',' :: dumpsItems y ys
termination_by x xs => sizeOf x + sizeOf xs

def dumpsFields : String → Json → List (String × Json) → List Char
  | k, v, [] => jStrChars k ++ ':' :: (dumpsV v ++ ['\x7d'])
  | k, v, (k2, v2) :: ms => jStrChars k ++ ':' :: (dumpsV v ++ ',' :: dumpsFields k2 v2 ms)
termination_by _k v ms => sizeOf v + sizeOf ms
end

/-- Model of json.dumps restricted to the modelled grammar, used to state the
re-serialization round trip of C5. -/
def Json.dumps (j : Json) : String := String.mk (dumpsV j)

mutual
def jNeed : Json → Nat
  | .null => 1
  | .bool _ => 1
  | .num _ => 1
  | .str _ => 1
  | .arr [] => 1
  | .arr (x :: xs) => 1 + jNeedItems x xs
  | .obj [] => 1
  | .obj ((k, v) :: ms) => 1 + jNeedFields k v ms
termination_by j => sizeOf j

def jNeedItems : Json → List Json → Nat
  | x, [] => 1 + jNeed x
  | x, y :: ys => 1 + Nat.max (jNeed x) (jNeedItems y ys)
termination_by x xs => sizeOf x + sizeOf xs

def jNeedFields : String → Json → List (String × Json) → Nat
  | _, v, [] => 1 + jNeed v
  | _, v, (k2, v2) :: ms => 1 + Nat.max (jNeed v) (jNeedFields k2 v2 ms)
termination_by _k v ms => sizeOf v + sizeOf ms
end

def jNoDigitHead : List Char → Prop
  | [] => True
  | c :: _ => jIsDigit c = false

structure ContentBlock where
  text : String
deriving DecidableEq

structure AnthropicResponse where
  content : List ContentBlock
deriving DecidableEq

structure AnthropicRequest where
  model : String
  max_tokens : Nat
  temperature : ℚ
  prompt : String
deriving DecidableEq

structure HttpResponse where
  status_code : Nat
  content_length : Option Nat
  body_size : Nat
deriving DecidableEq

/-- Observable actions of one form submission: streamlit messages, external
collaborator calls and file operations, in program order. Progress-bar
updates are excluded as UI cosmetics. -/
inductive Event where
  | stInfo (msg : String)
  | stWarning (msg : String)
  | stError (msg : String)
  | stSuccess (msg : String)
  | spinner (msg : String)
  | callPytube (url : String)
  | callYtdlp (url : String) (fmt : String)
  | httpGet (url : String) (userAgent : String)
  | writeChunk (size : Nat)
  | saveUpload (content : String) (path : String)
  | loadWhisper
  | whisperTranscribe (path : String)
  | ffmpegProbe (path : String)
  | ffmpegExtractAudio (src : String) (dst : String)
  | langdetectCall (text : String)
  | anthropicCreate (req : AnthropicRequest)
  | unlink (path : String)
deriving DecidableEq

/-- Outcomes of the external collaborators for one run: each field gives the
result (or raised exception, as an error string) of the corresponding call,
plus the names drawn for temporary files. -/
structure Env where
  ytdlp : String → Except String Unit
  http : String → Except String HttpResponse
  ffprobe : String → Except String String
  whisperLoad : Except String Unit
  whisper : String → Except String String
  ffmpegExtract : String → Except String Unit
  audioSize : String → Nat
  langdetect : String → Except String String
  apiKey : Option String
  anthropic : AnthropicRequest → Except String AnthropicResponse
  unlinkFile : String → Except String Unit
  ytdlpTmp : String
  directTmp : String
  uploadTmp : String
  audioTmp : String

def browserUserAgent : String :=
  "Mozilla/5.0 (Windows NT 10.0; Win64; x64) AppleWebKit/537.36 (KHTML, like Gecko) Chrome/91.0.4472.124 Safari/537.36"

def chunkSize : Nat := 1024 * 1024

def chunkSizes (total : Nat) : List Nat :=
  List.replicate (total / chunkSize) chunkSize ++
    (if total % chunkSize = 0 then [] else [total % chunkSize])

/-- Model of download_video_ytdlp (src/app.py:41-67): a yt-dlp download with
format best[ext=mp4] into a fresh temporary file, null plus an error message
on any exception. -/
def download_video_ytdlp (env : Env) (url : String) : Option String × List Event :=
  match env.ytdlp url with
  | .ok _ =>
    (some env.ytdlpTmp,
     [.stInfo "Downloading video...", .callYtdlp url "best[ext=mp4]"])
  | .error e =>
    (none,
     [.stInfo "Downloading video...", .callYtdlp url "best[ext=mp4]",
      .stError ("Error downloading video with yt-dlp: " ++ e)])

/-- Model of download_video_direct (src/app.py:69-100): a streamed GET with a
browser-like User-Agent, written in 1 MiB chunks on status 200; null plus an
error message on any other status or exception. -/
def download_video_direct (env : Env) (url : String) : Option String × List Event :=
  match env.http url with
  | .error e =>
    (none,
     [.stInfo "Attempting direct download...", .httpGet url browserUserAgent,
      .stError ("Error with direct download: " ++ e)])
  | .ok resp =>
    if resp.status_code = 200 then
      (some env.directTmp,
       [.stInfo "Attempting direct download...", .httpGet url browserUserAgent] ++
         (chunkSizes resp.body_size).map Event.writeChunk)
    else
      (none,
       [.stInfo "Attempting direct download...", .httpGet url browserUserAgent,
        .stError ("Failed to download: HTTP status code " ++ toString resp.status_code)])

def jStartsWith : List Char → List Char → Bool
  | [], _ => true
  | _ :: _, [] => false
  | n :: ns, h :: hs => n = h && jStartsWith ns hs

def containsAux (needle : List Char) : List Char → Bool
  | [] => needle.isEmpty
  | c :: cs => jStartsWith needle (c :: cs) || containsAux needle cs

/-- Model of the Python substring test (needle in hay). -/
def strContains (hay needle : String) : Bool := containsAux needle.data hay.data

/-- Model of verify_audio_exists (src/app.py:102-116): probes the file with
ffmpeg and looks for the markers Stream #0:1 or Audio in its stderr; any
exception yields false with an error message. -/
def verify_audio_exists (env : Env) (video_path : String) : Bool × List Event :=
  match env.ffprobe video_path with
  | .ok stderrText =>
    (strContains stderrText "Stream #0:1" || strContains stderrText "Audio",
     [.ffmpegProbe video_path])
  | .error e =>
    (false, [.ffmpegProbe video_path, .stError ("Error verifying audio: " ++ e)])

/-- Model of the first, shadowed transcribe_video (src/app.py:119-160): audio
verification, ffmpeg audio extraction to a wav file, a size check, whisper
transcription of the extracted audio, and unlink of the wav file, all inside
one try block whose except returns null with an error message. -/
def transcribe_video_v1 (env : Env) (video_path : String) : Option String × List Event :=
  let info : List Event := [.stInfo "Transcribing video (this may take a few minutes)..."]
  let va := verify_audio_exists env video_path
  if !va.1 then
    (none, info ++ va.2 ++
      [.stError "No audio stream found in the video file. Cannot transcribe."])
  else
    match env.whisperLoad with
    | .error e =>
      (none, info ++ va.2 ++ [.loadWhisper, .stError ("Error transcribing video: " ++ e)])
    | .ok _ =>
      match env.ffmpegExtract video_path with
      | .error e =>
        (none, info ++ va.2 ++
          [.loadWhisper, .ffmpegExtractAudio video_path env.audioTmp,
           .stError ("Error transcribing video: " ++ e)])
      | .ok _ =>
        if env.audioSize env.audioTmp < 1000 then
          (none, info ++ va.2 ++
            [.loadWhisper, .ffmpegExtractAudio video_path env.audioTmp,
             .stError "Extracted audio file is too small or empty."])
        else
          match env.whisper env.audioTmp with
          | .error e =>
            (none, info ++ va.2 ++
              [.loadWhisper, .ffmpegExtractAudio video_path env.audioTmp,
               .whisperTranscribe env.audioTmp,
               .stError ("Error transcribing video: " ++ e)])
          | .ok text =>
            match env.unlinkFile env.audioTmp with
            | .error e =>
              (none, info ++ va.2 ++
                [.loadWhisper, .ffmpegExtractAudio video_path env.audioTmp,
                 .whisperTranscribe env.audioTmp, .unlink env.audioTmp,
                 .stError ("Error transcribing video: " ++ e)])
            | .ok _ =>
              (some text, info ++ va.2 ++
                [.loadWhisper, .ffmpegExtractAudio video_path env.audioTmp,
                 .whisperTranscribe env.audioTmp, .unlink env.audioTmp])

/-- Model of the second, active transcribe_video (src/app.py:163-177): load
the cached whisper model and transcribe the video directly; any exception
yields a null transcript with an error message. -/
def transcribe_video (env : Env) (video_path : String) : Option String × List Event :=
  let info : List Event := [.stInfo "Transcribing video (this may take a few minutes)..."]
  match env.whisperLoad with
  | .error e => (none, info ++ [.loadWhisper, .stError ("Error transcribing video: " ++ e)])
  | .ok _ =>
    match env.whisper video_path with
    | .ok text => (some text, info ++ [.loadWhisper, .whisperTranscribe video_path])
    | .error e =>
      (none, info ++ [.loadWhisper, .whisperTranscribe video_path,
        .stError ("Error transcribing video: " ++ e)])

/-- Model of detect_language (src/app.py:180-184): langdetect.detect under a
bare except that falls back to the fixed code en. The Lean function is total,
mirroring that no exception escapes. -/
def detect_language (env : Env) (text : String) : String × List Event :=
  match env.langdetect text with
  | .ok code => (code, [.langdetectCall text])
  | .error _ => ("en", [.langdetectCall text])

/-- Text of the f-string prompt of generate_structured_summary
(src/app.py:192-208), indentation and blank lines included. -/
def claude_prompt (transcript lang : String) : String :=
  "\n    Please analyze this educational video transcript and create a well-structured \n" ++
  "    explanatory summary that could be used for an animated educational video.\n" ++
  "    \n" ++
  "    The summary should include:\n" ++
  "    1. Introduction of the main topic\n" ++
  "    2. Key concepts organized in logical sequence\n" ++
  "    3. Important definitions and formulas (if applicable)\n" ++
  "    4. Examples and applications\n" ++
  "    5. Summary of critical points\n" ++
  "    \n" ++
  "    Format the output as a JSON structure with these sections clearly defined.\n" ++
  "    The transcript language is " ++ lang ++ ".\n" ++
  "    \n" ++
  "    Transcript:\n" ++
  "    " ++ transcript ++ "\n    "

/-- Request submitted by generate_structured_summary (src/app.py:211-218);
the temperature 0.3 is recorded exactly as the rational 3 / 10. -/
def anthropic_request (transcript lang : String) : AnthropicRequest :=
  { model := "claude-3-sonnet-20240229"
    max_tokens := 4000
    temperature := 3 / 10
    prompt := claude_prompt transcript lang }

/-- Model of generate_structured_summary (src/app.py:187-224) together with
get_anthropic_client (src/app.py:26-32): a missing key surfaces an error and
ends the script (observationally a null result here), one messages.create
call otherwise, returning the first content block text; any exception,
including the IndexError on an empty content list, yields null with an error
message. -/
def generate_structured_summary (env : Env) (transcript lang : String) :
    Option String × List Event :=
  let info : List Event := [.stInfo "Generating structured summary using Claude..."]
  match env.apiKey with
  | none =>
    (none, info ++
      [.stError "Anthropic API key not found. Please set it in the app secrets or .env file."])
  | some _ =>
    let req := anthropic_request transcript lang
    match env.anthropic req with
    | .error e =>
      (none, info ++ [.anthropicCreate req, .stError ("Error generating summary: " ++ e)])
    | .ok resp =>
      match resp.content with
      | [] =>
        (none, info ++
          [.anthropicCreate req, .stError "Error generating summary: list index out of range"])
      | b :: _ => (some b.text, info ++ [.anthropicCreate req])

inductive FormattedSummary where
  | parsed (content : Json)
  | text (s : String)

/-- Model of format_for_animation (src/app.py:227-234): the parsed JSON value
on success, the original string unchanged on JSONDecodeError. -/
def format_for_animation (structured_content : String) : FormattedSummary :=
  match Json.loads structured_content with
  | some content => .parsed content
  | none => .text structured_content

/-- Model of the display lookup table of src/app.py:280-286: a fixed map of
five codes, unknown codes passing through verbatim. -/
def language_name (language : String) : String :=
  if language = "en" then "English"
  else if language = "ar" then "Arabic"
  else if language = "fr" then "French"
  else if language = "es" then "Spanish"
  else if language = "de" then "German"
  else language

structure Submission where
  video_url : String
  uploaded_file : Option String

structure RunResult where
  video_path : Option String
  transcript : Option String
  structured_content : Option String
  animation_script : Option FormattedSummary
  trace : List Event

/-- Truthiness of an optional string as Python sees it: None and the empty
string are false. -/
def pyTruthyOpt : Option String → Bool
  | none => false
  | some s => s ≠ ""

/-- Acquisition step of the form handler (src/app.py:252-267): an uploaded
file is saved to a temporary file and wins over the URL; otherwise yt-dlp is
tried and, if it returns no file, the direct download. -/
def acquire (env : Env) (sub : Submission) : Option String × List Event :=
  match sub.uploaded_file with
  | some f =>
    (some env.uploadTmp,
     [.spinner "Saving uploaded video...", .saveUpload f env.uploadTmp])
  | none =>
    let d1 := download_video_ytdlp env sub.video_url
    if pyTruthyOpt d1.1 then d1
    else
      let d2 := download_video_direct env sub.video_url
      (d2.1, d1.2 ++
        [.stWarning "Primary download method failed. Trying alternative method..."] ++ d2.2)

/-- Stages 3 to 5 of the form handler (src/app.py:278-326) for a truthy
transcript t: language detection, generation, and, when the structured
content is truthy, formatting, the success banner and the best-effort unlink
of the video file (the try/except pass at src/app.py:322-326: the unlink
outcome is ignored). -/
def run_from_transcript (env : Env) (vp t : String) : RunResult :=
  let dl := detect_language env t
  let gen := generate_structured_summary env t dl.1
  match gen.1, pyTruthyOpt gen.1 with
  | some c, true =>
    { video_path := some vp
      transcript := some t
      structured_content := some c
      animation_script := some (format_for_animation c)
      trace := dl.2 ++ gen.2 ++ [.stSuccess "✅ Processing complete!", .unlink vp] }
  | c, _ =>
    { video_path := some vp
      transcript := some t
      structured_content := c
      animation_script := none
      trace := dl.2 ++ gen.2 }

/-- Stage 2 of the form handler (src/app.py:270-326) for a truthy video path:
transcription, then the truthiness test if transcript decides whether the
remaining stages run. -/
def run_from_video (env : Env) (vp : String) : RunResult :=
  let tr := transcribe_video env vp
  match tr.1, pyTruthyOpt tr.1 with
  | some t, true =>
    let r := run_from_transcript env vp t
    { r with trace := tr.2 ++ r.trace }
  | t, _ =>
    { video_path := some vp
      transcript := t
      structured_content := none
      animation_script := none
      trace := tr.2 }

/-- Model of the form submission handler (src/app.py:247-328): the guard on
submit and inputs, acquisition, the truthiness test if video_path, the rest
of the pipeline on success and the cannot-process error otherwise. -/
def main_handler (env : Env) (sub : Submission) : RunResult :=
  if sub.video_url ≠ "" ∨ sub.uploaded_file.isSome then
    let acq := acquire env sub
    match acq.1, pyTruthyOpt acq.1 with
    | some vp, true =>
      let r := run_from_video env vp
      { r with trace := acq.2 ++ r.trace }
    | _, _ =>
      { video_path := acq.1
        transcript := none
        structured_content := none
        animation_script := none
        trace := acq.2 ++
          [.stError "Unable to process the video. Please check the URL or try uploading the file directly."] }
  else
    { video_path := none
      transcript := none
      structured_content := none
      animation_script := none
      trace := [] }

def Event.isUnlink : Event → Bool
  | .unlink _ => true
  | _ => false

def Event.isPytube : Event → Bool
  | .callPytube _ => true
  | _ => false

def Event.isAcqCall : Event → Bool
  | .callPytube _ => true
  | .callYtdlp _ _ => true
  | .httpGet _ _ => true
  | _ => false

def Event.isAnthropicCall : Event → Bool
  | .anthropicCreate _ => true
  | _ => false

def Event.isWhisperCall : Event → Bool
  | .loadWhisper => true
  | .whisperTranscribe _ => true
  | _ => false

def Event.isDetectCall : Event → Bool
  | .langdetectCall _ => true
  | _ => false

def Event.isErrorMsg : Event → Bool
  | .stError _ => true
  | _ => false

/-- Concrete environment of a fully successful run, used by witnesses. -/
def envSanity : Env :=
  { ytdlp := fun _ => .ok ()
    http := fun _ => .error "net"
    ffprobe := fun _ => .ok "Audio"
    whisperLoad := .ok ()
    whisper := fun _ => .ok "hello world"
    ffmpegExtract := fun _ => .ok ()
    audioSize := fun _ => 5000
    langdetect := fun _ => .ok "en"
    apiKey := some "k"
    anthropic := fun _ => .ok { content := [{ text := "plain summary" }] }
    unlinkFile := fun _ => .ok ()
    ytdlpTmp := "/tmp/a.mp4"
    directTmp := "/tmp/b.mp4"
    uploadTmp := "/tmp/c.mp4"
    audioTmp := "/tmp/d.wav" }

def envC1 : Env := { envSanity with whisper := fun _ => .error "whisper crashed" }

def badChunk : Event → Bool
  | .writeChunk n => decide (chunkSize < n)
  | _ => false

def envC2 : Env := { envSanity with
  ytdlp := fun _ => .error "blocked"
  http := fun _ => .error "refused" }

def envC3 : Env := { envSanity with ffprobe := fun _ => .ok "only a video track" }

def envC4 : Env := { envSanity with langdetect := fun _ => .error "No features in text." }

def Json.is_mapping : Json → Bool
  | .obj _ => true
  | _ => false

def envC10 : Env := { envSanity with whisper := fun _ => .ok "" }

theorem lit_null_data : "null".data = ['n', 'u', 'l', 'l'] := rfl

theorem lit_true_data : "true".data = ['t', 'r', 'u', 'e'] := rfl

theorem lit_false_data : "false".data = ['f', 'a', 'l', 's', 'e'] := rfl

theorem one_le_jNeed (j : Json) : 1 ≤ jNeed j := by
  cases j with
  | null => simp [jNeed]
  | bool b => simp [jNeed]
  | num n => simp [jNeed]
  | str s => simp [jNeed]
  | arr xs => cases xs <;> simp [jNeed]
  | obj ms =>
    cases ms with
    | nil => simp [jNeed]
    | cons m ms => obtain ⟨k, v⟩ := m; simp [jNeed]

theorem toNat_digitChar (m : Nat) (h : m < 10) : (Char.ofNat (48 + m)).toNat = 48 + m := by
  interval_cases m <;> decide

theorem jIsDigit_digitChar (m : Nat) (h : m < 10) : jIsDigit (Char.ofNat (48 + m)) = true := by
  interval_cases m <;> decide

theorem jIsDigit_toNat {c : Char} (h : jIsDigit c = true) : 48 ≤ c.toNat ∧ c.toNat ≤ 57 := by
  simpa [jIsDigit] using h

theorem digit_ne {c : Char} (h : jIsDigit c = true) (d : Char) (hd : d.toNat < 48 ∨ 57 < d.toNat) :
    c ≠ d := by
  obtain ⟨h1, h2⟩ := jIsDigit_toNat h
  rintro rfl
  omega

theorem jIsSpace_false_of_digit {c : Char} (h : jIsDigit c = true) : jIsSpace c = false := by
  obtain ⟨h1, h2⟩ := jIsDigit_toNat h
  simp only [jIsSpace, Bool.or_eq_false_iff, beq_eq_false_iff_ne]
  refine ⟨⟨⟨?_, ?_⟩, ?_⟩, ?_⟩ <;> (rintro rfl; simp at h1 h2)

theorem jSkip_not_space {c : Char} (h : jIsSpace c = false) (l : List Char) :
    jSkip (c :: l) = c :: l := by
  simp [jSkip, h]

theorem natDigitsAux_append (n : Nat) : ∀ acc, natDigitsAux n acc = natDigitsAux n [] ++ acc := by
  induction n using Nat.strong_induction_on with
  | _ n ih =>
    intro acc
    by_cases h : n < 10
    · conv_lhs => rw [natDigitsAux, if_pos h]
      conv_rhs => rw [natDigitsAux, if_pos h]
      simp
    · have hd : n / 10 < n := Nat.div_lt_self (by omega) (by omega)
      conv_lhs => rw [natDigitsAux, if_neg h, ih (n / 10) hd]
      conv_rhs => rw [natDigitsAux, if_neg h, ih (n / 10) hd]
      simp

theorem natDigitsAux_cons (n : Nat) : ∃ c l, natDigitsAux n [] = c :: l ∧ jIsDigit c = true := by
  induction n using Nat.strong_induction_on with
  | _ n ih =>
    by_cases h : n < 10
    · exact ⟨Char.ofNat (48 + n), [], by rw [natDigitsAux, if_pos h], jIsDigit_digitChar n h⟩
    · have hd : n / 10 < n := Nat.div_lt_self (by omega) (by omega)
      obtain ⟨c, l, he, hc⟩ := ih (n / 10) hd
      refine ⟨c, l ++ [Char.ofNat (48 + n % 10)], ?_, hc⟩
      rw [natDigitsAux, if_neg h, natDigitsAux_append, he]
      simp

theorem natDigitsAux_all_digits (n : Nat) : ∀ c ∈ natDigitsAux n [], jIsDigit c = true := by
  induction n using Nat.strong_induction_on with
  | _ n ih =>
    by_cases h : n < 10
    · rw [natDigitsAux, if_pos h]
      intro c hc
      simp at hc
      subst hc
      exact jIsDigit_digitChar n h
    · have hd : n / 10 < n := Nat.div_lt_self (by omega) (by omega)
      rw [natDigitsAux, if_neg h, natDigitsAux_append]
      intro c hc
      rcases List.mem_append.mp hc with hm | hm
      · exact ih (n / 10) hd c hm
      · simp at hm
        subst hm
        exact jIsDigit_digitChar (n % 10) (Nat.mod_lt n (by omega))

theorem jDigitsVal_append_one (xs : List Char) (c : Char) :
    jDigitsVal (xs ++ [c]) = jDigitsVal xs * 10 + (c.toNat - 48) := by
  simp [jDigitsVal, List.foldl_append]

theorem jDigitsVal_natDigitsAux (n : Nat) : jDigitsVal (natDigitsAux n []) = n := by
  induction n using Nat.strong_induction_on with
  | _ n ih =>
    by_cases h : n < 10
    · rw [natDigitsAux, if_pos h]
      simp [jDigitsVal, toNat_digitChar n h]
    · have hd : n / 10 < n := Nat.div_lt_self (by omega) (by omega)
      rw [natDigitsAux, if_neg h, natDigitsAux_append, jDigitsVal_append_one, ih (n / 10) hd,
        toNat_digitChar (n % 10) (Nat.mod_lt n (by omega))]
      omega

theorem jNoDigitHead_of_jNumEnd {rest : List Char} (h : jNumEnd rest = true) :
    jNoDigitHead rest := by
  cases rest with
  | nil => trivial
  | cons c r =>
    simp [jNumEnd] at h
    simp [jNoDigitHead, h.1]

theorem jDigits_exact :
    ∀ ds : List Char, (∀ c ∈ ds, jIsDigit c = true) →
      ∀ rest : List Char, jNoDigitHead rest → jDigits (ds ++ rest) = (ds, rest) := by
  intro ds
  induction ds with
  | nil =>
    intro _ rest hrest
    cases rest with
    | nil => rfl
    | cons c r =>
      simp [jNoDigitHead] at hrest
      simp [jDigits, hrest]
  | cons d ds ih =>
    intro hall rest hrest
    have hd : jIsDigit d = true := hall d (by simp)
    simp only [List.cons_append, jDigits, hd, if_true]
    rw [show ds.append rest = ds ++ rest from rfl, ih (fun c hc => hall c (by simp [hc])) rest hrest]

theorem jReadNum_intChars (i : Int) (rest : List Char) (hrest : jNumEnd rest = true) :
    jReadNum (intChars i ++ rest) = some (i, rest) := by
  have hstop := jNoDigitHead_of_jNumEnd hrest
  by_cases hi : i < 0
  · rw [intChars, if_pos hi]
    have hds := natDigitsAux_all_digits i.natAbs
    obtain ⟨c, l, he, hc⟩ := natDigitsAux_cons i.natAbs
    simp only [List.cons_append, jReadNum, if_pos rfl]
    rw [jDigits_exact (natDigitsAux i.natAbs []) hds rest hstop]
    have hne : natDigitsAux i.natAbs [] ≠ [] := by rw [he]; simp
    simp [hne, hrest, jDigitsVal_natDigitsAux, abs_of_neg hi]
  · rw [intChars, if_neg hi]
    have hds := natDigitsAux_all_digits i.natAbs
    obtain ⟨c, l, he, hc⟩ := natDigitsAux_cons i.natAbs
    rw [he]
    simp only [List.cons_append, jReadNum]
    rw [if_neg (digit_ne hc '-' (by decide))]
    rw [show c :: (l ++ rest) = (c :: l) ++ rest from rfl, ← he,
      jDigits_exact (natDigitsAux i.natAbs []) hds rest hstop]
    have hne : natDigitsAux i.natAbs [] ≠ [] := by rw [he]; simp
    simp [hne, hrest, jDigitsVal_natDigitsAux, abs_of_nonneg (not_lt.mp hi)]

theorem jReadStr_esc_step (acc rest2 : List Char) (e c2 : Char) (hu : jUnescape e = some c2) :
    jReadStr acc ('\\' :: e :: rest2) = jReadStr (c2 :: acc) rest2 := by
  rw [jReadStr.eq_def]
  simp [hu]

theorem jReadStr_plain_step (acc rest : List Char) (c : Char) (h1 : c ≠ '"') (h2 : c ≠ '\\') :
    jReadStr acc (c :: rest) = jReadStr (c :: acc) rest := by
  rw [jReadStr.eq_def]
  simp [h1, h2]

theorem jReadStr_body :
    ∀ cs acc rest, jReadStr acc (jStrBody cs ++ ('"' :: rest)) =
      some (String.mk (acc.reverse ++ cs), rest) := by
  intro cs
  induction cs with
  | nil =>
    intro acc rest
    rw [show jStrBody [] ++ ('\x22' :: rest) = '\x22' :: rest from rfl, jReadStr.eq_def]
    simp
  | cons c cs ih =>
    intro acc rest
    have hbody : jStrBody (c :: cs) = jEscape c ++ jStrBody cs := rfl
    rw [hbody, List.append_assoc]
    by_cases h1 : c = '"'
    · subst h1
      rw [show jEscape '"' = ['\\', '"'] from by simp [jEscape]]
      rw [show (['\\', '"'] : List Char) ++ (jStrBody cs ++ '"' :: rest) =
        '\\' :: '"' :: (jStrBody cs ++ '"' :: rest) from rfl]
      rw [jReadStr_esc_step _ _ '"' '"' (by decide), ih]
      simp
    · by_cases h2 : c = '\\'
      · subst h2
        rw [show jEscape '\\' = ['\\', '\\'] from by simp [jEscape]]
        rw [show (['\\', '\\'] : List Char) ++ (jStrBody cs ++ '"' :: rest) =
          '\\' :: '\\' :: (jStrBody cs ++ '"' :: rest) from rfl]
        rw [jReadStr_esc_step _ _ '\\' '\\' (by decide), ih]
        simp
      · by_cases h3 : c = '\n'
        · subst h3
          rw [show jEscape '\n' = ['\\', 'n'] from by simp [jEscape]]
          rw [show (['\\', 'n'] : List Char) ++ (jStrBody cs ++ '"' :: rest) =
            '\\' :: 'n' :: (jStrBody cs ++ '"' :: rest) from rfl]
          rw [jReadStr_esc_step _ _ 'n' '\n' (by decide), ih]
          simp
        · by_cases h4 : c = '\t'
          · subst h4
            rw [show jEscape '\t' = ['\\', 't'] from by simp [jEscape]]
            rw [show (['\\', 't'] : List Char) ++ (jStrBody cs ++ '"' :: rest) =
              '\\' :: 't' :: (jStrBody cs ++ '"' :: rest) from rfl]
            rw [jReadStr_esc_step _ _ 't' '\t' (by decide), ih]
            simp
          · by_cases h5 : c = '\r'
            · subst h5
              rw [show jEscape '\r' = ['\\', 'r'] from by simp [jEscape]]
              rw [show (['\\', 'r'] : List Char) ++ (jStrBody cs ++ '"' :: rest) =
                '\\' :: 'r' :: (jStrBody cs ++ '"' :: rest) from rfl]
              rw [jReadStr_esc_step _ _ 'r' '\r' (by decide), ih]
              simp
            · rw [show jEscape c = [c] from by simp [jEscape, h1, h2, h3, h4, h5]]
              rw [show ([c] : List Char) ++ (jStrBody cs ++ '"' :: rest) =
                c :: (jStrBody cs ++ '"' :: rest) from rfl]
              rw [jReadStr_plain_step _ _ c h1 h2, ih]
              simp

theorem jReadStr_chars (s : String) (rest : List Char) :
    jReadStr [] (jStrBody s.data ++ ('"' :: rest)) = some (s, rest) := by
  rw [jReadStr_body]
  cases s
  simp

theorem jNumEnd_rbracket (l : List Char) : jNumEnd (']' :: l) = true := rfl

theorem jNumEnd_rbrace (l : List Char) : jNumEnd ('\x7d' :: l) = true := rfl

theorem jNumEnd_comma (l : List Char) : jNumEnd (',' :: l) = true := rfl

theorem dumpsV_head (j : Json) :
    ∃ c l, dumpsV j = c :: l ∧ jIsSpace c = false ∧ c ≠ ']' ∧ c ≠ '\x7d' := by
  cases j with
  | null => exact ⟨'n', ['u', 'l', 'l'], by simp [dumpsV, lit_null_data], by decide, by decide,
      by decide⟩
  | bool b =>
    cases b with
    | true => exact ⟨'t', ['r', 'u', 'e'], by simp [dumpsV, lit_true_data], by decide, by decide,
        by decide⟩
    | false => exact ⟨'f', ['a', 'l', 's', 'e'], by simp [dumpsV, lit_false_data], by decide,
        by decide, by decide⟩
  | num n =>
    by_cases hn : n < 0
    · refine ⟨'-', natDigitsAux n.natAbs [], ?_, by decide, by decide, by decide⟩
      simp [dumpsV, intChars, hn]
    · obtain ⟨c, l, he, hc⟩ := natDigitsAux_cons n.natAbs
      refine ⟨c, l, ?_, jIsSpace_false_of_digit hc, digit_ne hc ']' (by decide),
        digit_ne hc '\x7d' (by decide)⟩
      simp [dumpsV, intChars, hn, he]
  | str s => exact ⟨'"', jStrBody s.data ++ ['"'], by simp [dumpsV, jStrChars], by decide,
      by decide, by decide⟩
  | arr xs =>
    cases xs with
    | nil => exact ⟨'[', [']'], by simp [dumpsV], by decide, by decide, by decide⟩
    | cons x xs => exact ⟨'[', dumpsItems x xs, by simp [dumpsV], by decide, by decide, by decide⟩
  | obj ms =>
    cases ms with
    | nil => exact ⟨'\x7b', ['\x7d'], by simp [dumpsV], by decide, by decide, by decide⟩
    | cons m ms =>
      obtain ⟨k, v⟩ := m
      exact ⟨'\x7b', dumpsFields k v ms, by simp [dumpsV], by decide, by decide, by decide⟩

theorem one_le_jNeedItems (x : Json) (xs : List Json) : 1 ≤ jNeedItems x xs := by
  cases xs with
  | nil => simp [jNeedItems]
  | cons y ys => simp [jNeedItems]

theorem one_le_jNeedFields (k : String) (v : Json) (ms : List (String × Json)) :
    1 ≤ jNeedFields k v ms := by
  cases ms with
  | nil => simp [jNeedFields]
  | cons m ms => obtain ⟨k2, v2⟩ := m; simp [jNeedFields]

theorem dumpsItems_split (x : Json) (xs : List Json) :
    ∃ t, dumpsItems x xs = dumpsV x ++ t := by
  cases xs with
  | nil => exact ⟨[']'], by simp [dumpsItems]⟩
  | cons y ys => exact ⟨',' :: dumpsItems y ys, by simp [dumpsItems]⟩

theorem dumpsFields_split (k : String) (v : Json) (ms : List (String × Json)) :
    ∃ t, dumpsFields k v ms = '"' :: t := by
  cases ms with
  | nil => exact ⟨(jStrBody k.data ++ ['"']) ++ ':' :: (dumpsV v ++ ['\x7d']), by
      simp [dumpsFields, jStrChars]⟩
  | cons m2 ms2 =>
    obtain ⟨k2, v2⟩ := m2
    exact ⟨(jStrBody k.data ++ ['"']) ++ ':' :: (dumpsV v ++ ',' :: dumpsFields k2 v2 ms2), by
      simp [dumpsFields, jStrChars]⟩

theorem list_sizeOf_pos {α : Type} [SizeOf α] (l : List α) : 0 < sizeOf l := by
  cases l <;> simp_arith

theorem sizeOf_snd_lt {α β : Type} [SizeOf α] [SizeOf β] (m : α × β) : sizeOf m.2 < sizeOf m := by
  obtain ⟨a, b⟩ := m
  simp_arith

mutual
theorem parseV_dumps (j : Json) (fuel : Nat) (rest : List Char)
    (hf : jNeed j ≤ fuel) (hrest : jNumEnd rest = true) :
    parseV fuel (dumpsV j ++ rest) = some (j, rest) := by
  obtain ⟨f, rfl⟩ : ∃ f, fuel = f + 1 := ⟨fuel - 1, by have := one_le_jNeed j; omega⟩
  cases j with
  | null => simp [dumpsV, lit_null_data, parseV, jSkip, jIsSpace]
  | bool b => cases b <;> simp [dumpsV, lit_true_data, lit_false_data, parseV, jSkip, jIsSpace]
  | str s => simp [dumpsV, jStrChars, parseV, jSkip, jIsSpace, jReadStr_chars]
  | num n =>
    have hnum := jReadNum_intChars n rest hrest
    by_cases hn : n < 0
    · rw [show dumpsV (Json.num n) = intChars n from by simp [dumpsV]]
      rw [intChars, if_pos hn, List.cons_append] at hnum ⊢
      simp [parseV, jSkip, jIsSpace, hnum]
    · obtain ⟨c, l, he, hc⟩ := natDigitsAux_cons n.natAbs
      rw [show dumpsV (Json.num n) = intChars n from by simp [dumpsV]]
      rw [intChars, if_neg hn, he, List.cons_append] at hnum ⊢
      simp [parseV, jSkip_not_space (jIsSpace_false_of_digit hc), hnum,
        digit_ne hc 'n' (by decide), digit_ne hc 't' (by decide), digit_ne hc 'f' (by decide),
        digit_ne hc '"' (by decide), digit_ne hc '[' (by decide), digit_ne hc '\x7b' (by decide)]
  | arr xs =>
    cases xs with
    | nil => simp [dumpsV, parseV, jSkip, jIsSpace]
    | cons x xs =>
      have hfx : jNeedItems x xs ≤ f := by
        have h2 : jNeed (Json.arr (x :: xs)) = 1 + jNeedItems x xs := by simp [jNeed]
        omega
      obtain ⟨t, ht⟩ := dumpsItems_split x xs
      obtain ⟨c, l, he, hsp, hrb, hcb⟩ := dumpsV_head x
      have hexp : dumpsItems x xs ++ rest = c :: (l ++ (t ++ rest)) := by rw [ht, he]; simp
      have hitems2 : parseItems f (c :: (l ++ (t ++ rest))) = some (x :: xs, rest) := by
        rw [← hexp]; exact parseItems_dumps x xs f rest hfx
      rw [show dumpsV (Json.arr (x :: xs)) = '[' :: dumpsItems x xs from by simp [dumpsV],
        List.cons_append]
      simp [parseV, hexp, jSkip_not_space (by decide : jIsSpace '[' = false),
        jSkip_not_space hsp, hrb, hitems2]
  | obj ms =>
    cases ms with
    | nil => simp [dumpsV, parseV, jSkip, jIsSpace]
    | cons m ms =>
      have hfx : jNeedFields m.1 m.2 ms ≤ f := by
        have h2 : jNeed (Json.obj (m :: ms)) = 1 + jNeedFields m.1 m.2 ms := by
          obtain ⟨k, v⟩ := m
          simp [jNeed]
        omega
      obtain ⟨t, ht⟩ := dumpsFields_split m.1 m.2 ms
      have hexp : dumpsFields m.1 m.2 ms ++ rest = '"' :: (t ++ rest) := by rw [ht]; simp
      have hflds2 : parseFields f ('"' :: (t ++ rest)) = some ((m.1, m.2) :: ms, rest) := by
        rw [← hexp]; exact parseFields_dumps m.1 m.2 ms f rest hfx
      have hm : (m.1, m.2) = m := rfl
      rw [hm] at hflds2
      rw [show dumpsV (Json.obj (m :: ms)) = '\x7b' :: dumpsFields m.1 m.2 ms from by
        obtain ⟨k, v⟩ := m
        simp [dumpsV], List.cons_append]
      simp [parseV, jSkip, jIsSpace, hexp, hflds2]
termination_by sizeOf j
decreasing_by
  all_goals simp_wf
  all_goals subst_vars
  all_goals (try simp)
  all_goals (first
    | omega
    | exact list_sizeOf_pos _
    | (have h9 := sizeOf_snd_lt m; omega)
    | (have h9 := sizeOf_snd_lt m2; omega)
    | (have h9 := sizeOf_snd_lt head; omega))

theorem parseItems_dumps (x : Json) (xs : List Json) (fuel : Nat) (rest : List Char)
    (hf : jNeedItems x xs ≤ fuel) :
    parseItems fuel (dumpsItems x xs ++ rest) = some (x :: xs, rest) := by
  obtain ⟨f, rfl⟩ : ∃ f, fuel = f + 1 :=
    ⟨fuel - 1, by have := one_le_jNeedItems x xs; omega⟩
  cases xs with
  | nil =>
    have hx : jNeed x ≤ f := by
      have h2 : jNeedItems x [] = 1 + jNeed x := by simp [jNeedItems]
      omega
    have hv := parseV_dumps x f (']' :: rest) hx (jNumEnd_rbracket rest)
    rw [show dumpsItems x [] = dumpsV x ++ [']'] from by simp [dumpsItems], List.append_assoc,
      List.singleton_append]
    simp [parseItems, hv, jSkip, jIsSpace]
  | cons y ys =>
    have hx : jNeed x ≤ f ∧ jNeedItems y ys ≤ f := by
      have h2 : jNeedItems x (y :: ys) = 1 + Nat.max (jNeed x) (jNeedItems y ys) := by
        simp [jNeedItems]
      have h5 : 1 + Nat.max (jNeed x) (jNeedItems y ys) ≤ f + 1 := h2 ▸ hf
      have h6 : Nat.max (jNeed x) (jNeedItems y ys) ≤ f := by
        rwa [Nat.add_comm, Nat.add_le_add_iff_right] at h5
      exact ⟨le_trans (Nat.le_max_left _ _) h6, le_trans (Nat.le_max_right _ _) h6⟩
    have hv := parseV_dumps x f (',' :: (dumpsItems y ys ++ rest)) hx.1 (jNumEnd_comma _)
    have hrec := parseItems_dumps y ys f rest hx.2
    rw [show dumpsItems x (y :: ys) = dumpsV x ++ ',' :: dumpsItems y ys from by
      simp [dumpsItems], List.append_assoc, List.cons_append]
    simp [parseItems, hv, hrec, jSkip, jIsSpace]
termination_by sizeOf x + sizeOf xs
decreasing_by
  all_goals simp_wf
  all_goals subst_vars
  all_goals (try simp)
  all_goals (first
    | omega
    | exact list_sizeOf_pos _
    | (have h9 := sizeOf_snd_lt m; omega)
    | (have h9 := sizeOf_snd_lt m2; omega)
    | (have h9 := sizeOf_snd_lt head; omega))

theorem parseFields_dumps (k : String) (v : Json) (ms : List (String × Json)) (fuel : Nat)
    (rest : List Char) (hf : jNeedFields k v ms ≤ fuel) :
    parseFields fuel (dumpsFields k v ms ++ rest) = some ((k, v) :: ms, rest) := by
  obtain ⟨f, rfl⟩ : ∃ f, fuel = f + 1 :=
    ⟨fuel - 1, by have := one_le_jNeedFields k v ms; omega⟩
  cases ms with
  | nil =>
    have hx : jNeed v ≤ f := by
      have h2 : jNeedFields k v [] = 1 + jNeed v := by simp [jNeedFields]
      omega
    have hv := parseV_dumps v f ('\x7d' :: rest) hx (jNumEnd_rbrace rest)
    rw [show dumpsFields k v [] = jStrChars k ++ ':' :: (dumpsV v ++ ['\x7d']) from by
      simp [dumpsFields], jStrChars]
    simp [parseFields, jSkip, jIsSpace, jReadStr_chars, hv]
  | cons m2 ms2 =>
    have hx : jNeed v ≤ f ∧ jNeedFields m2.1 m2.2 ms2 ≤ f := by
      have h2 : jNeedFields k v (m2 :: ms2) =
          1 + Nat.max (jNeed v) (jNeedFields m2.1 m2.2 ms2) := by
        obtain ⟨k2, v2⟩ := m2
        simp [jNeedFields]
      have h5 : 1 + Nat.max (jNeed v) (jNeedFields m2.1 m2.2 ms2) ≤ f + 1 := h2 ▸ hf
      have h6 : Nat.max (jNeed v) (jNeedFields m2.1 m2.2 ms2) ≤ f := by
        rwa [Nat.add_comm, Nat.add_le_add_iff_right] at h5
      exact ⟨le_trans (Nat.le_max_left _ _) h6, le_trans (Nat.le_max_right _ _) h6⟩
    have hv := parseV_dumps v f (',' :: (dumpsFields m2.1 m2.2 ms2 ++ rest)) hx.1 (jNumEnd_comma _)
    have hrec := parseFields_dumps m2.1 m2.2 ms2 f rest hx.2
    have hm2 : (m2.1, m2.2) = m2 := rfl
    rw [hm2] at hrec
    rw [show dumpsFields k v (m2 :: ms2) =
      jStrChars k ++ ':' :: (dumpsV v ++ ',' :: dumpsFields m2.1 m2.2 ms2) from by
      obtain ⟨k2, v2⟩ := m2
      simp [dumpsFields],
      jStrChars]
    simp [parseFields, jSkip, jIsSpace, jReadStr_chars, hv, hrec]
termination_by sizeOf v + sizeOf ms
decreasing_by
  all_goals simp_wf
  all_goals subst_vars
  all_goals (try simp)
  all_goals (first
    | omega
    | exact list_sizeOf_pos _
    | (have h9 := sizeOf_snd_lt m; omega)
    | (have h9 := sizeOf_snd_lt m2; omega)
    | (have h9 := sizeOf_snd_lt head; omega))
end

theorem one_le_length_natDigits (n : Nat) : 1 ≤ (natDigitsAux n []).length := by
  obtain ⟨c, l, he, _⟩ := natDigitsAux_cons n
  rw [he]
  simp

mutual
theorem jNeed_le_dumps (j : Json) : jNeed j ≤ 2 * (dumpsV j).length := by
  cases j with
  | null => simp [jNeed, dumpsV, lit_null_data]
  | bool b => cases b <;> simp [jNeed, dumpsV, lit_true_data, lit_false_data]
  | num n =>
    have h1 := one_le_length_natDigits n.natAbs
    rw [show jNeed (Json.num n) = 1 from by simp [jNeed],
      show dumpsV (Json.num n) = intChars n from by simp [dumpsV], intChars]
    by_cases hn : n < 0 <;> simp [hn] <;> omega
  | str s =>
    rw [show jNeed (Json.str s) = 1 from by simp [jNeed],
      show dumpsV (Json.str s) = jStrChars s from by simp [dumpsV], jStrChars]
    simp
    omega
  | arr xs =>
    cases xs with
    | nil => simp [jNeed, dumpsV]
    | cons x xs =>
      have h1 := jNeedItems_le_dumps x xs
      rw [show jNeed (Json.arr (x :: xs)) = 1 + jNeedItems x xs from by simp [jNeed],
        show dumpsV (Json.arr (x :: xs)) = '[' :: dumpsItems x xs from by simp [dumpsV]]
      simp
      omega
  | obj ms =>
    cases ms with
    | nil => simp [jNeed, dumpsV]
    | cons m ms =>
      have h1 := jNeedFields_le_dumps m.1 m.2 ms
      rw [show jNeed (Json.obj (m :: ms)) = 1 + jNeedFields m.1 m.2 ms from by
        obtain ⟨k, v⟩ := m
        simp [jNeed],
        show dumpsV (Json.obj (m :: ms)) = '\x7b' :: dumpsFields m.1 m.2 ms from by
        obtain ⟨k, v⟩ := m
        simp [dumpsV]]
      simp
      omega
termination_by sizeOf j
decreasing_by
  all_goals simp_wf
  all_goals subst_vars
  all_goals (try simp)
  all_goals (first
    | omega
    | exact list_sizeOf_pos _
    | (have h9 := sizeOf_snd_lt m; omega)
    | (have h9 := sizeOf_snd_lt m2; omega)
    | (have h9 := sizeOf_snd_lt head; omega))

theorem jNeedItems_le_dumps (x : Json) (xs : List Json) :
    jNeedItems x xs ≤ 1 + 2 * (dumpsItems x xs).length := by
  cases xs with
  | nil =>
    have h1 := jNeed_le_dumps x
    rw [show jNeedItems x [] = 1 + jNeed x from by simp [jNeedItems],
      show dumpsItems x [] = dumpsV x ++ [']'] from by simp [dumpsItems]]
    simp
    omega
  | cons y ys =>
    have h1 := jNeed_le_dumps x
    have h2 := jNeedItems_le_dumps y ys
    rw [show jNeedItems x (y :: ys) = 1 + Nat.max (jNeed x) (jNeedItems y ys) from by
      simp [jNeedItems],
      show dumpsItems x (y :: ys) = dumpsV x ++ ',' :: dumpsItems y ys from by simp [dumpsItems]]
    have h3 : Nat.max (jNeed x) (jNeedItems y ys) ≤
        2 * (dumpsV x).length + 1 + 2 * (dumpsItems y ys).length :=
      Nat.max_le.mpr ⟨by omega, by omega⟩
    simp
    omega
termination_by sizeOf x + sizeOf xs
decreasing_by
  all_goals simp_wf
  all_goals subst_vars
  all_goals (try simp)
  all_goals (first
    | omega
    | exact list_sizeOf_pos _
    | (have h9 := sizeOf_snd_lt m; omega)
    | (have h9 := sizeOf_snd_lt m2; omega)
    | (have h9 := sizeOf_snd_lt head; omega))

theorem jNeedFields_le_dumps (k : String) (v : Json) (ms : List (String × Json)) :
    jNeedFields k v ms ≤ 1 + 2 * (dumpsFields k v ms).length := by
  cases ms with
  | nil =>
    have h1 := jNeed_le_dumps v
    rw [show jNeedFields k v [] = 1 + jNeed v from by simp [jNeedFields],
      show dumpsFields k v [] = jStrChars k ++ ':' :: (dumpsV v ++ ['\x7d']) from by
      simp [dumpsFields]]
    simp
    omega
  | cons m2 ms2 =>
    have h1 := jNeed_le_dumps v
    have h2 := jNeedFields_le_dumps m2.1 m2.2 ms2
    rw [show jNeedFields k v (m2 :: ms2) =
      1 + Nat.max (jNeed v) (jNeedFields m2.1 m2.2 ms2) from by
      obtain ⟨k2, v2⟩ := m2
      simp [jNeedFields],
      show dumpsFields k v (m2 :: ms2) =
        jStrChars k ++ ':' :: (dumpsV v ++ ',' :: dumpsFields m2.1 m2.2 ms2) from by
      obtain ⟨k2, v2⟩ := m2
      simp [dumpsFields]]
    have h3 : Nat.max (jNeed v) (jNeedFields m2.1 m2.2 ms2) ≤
        2 * (dumpsV v).length + 1 + 2 * (dumpsFields m2.1 m2.2 ms2).length :=
      Nat.max_le.mpr ⟨by omega, by omega⟩
    simp
    omega
termination_by sizeOf v + sizeOf ms
decreasing_by
  all_goals simp_wf
  all_goals subst_vars
  all_goals (try simp)
  all_goals (first
    | omega
    | exact list_sizeOf_pos _
    | (have h9 := sizeOf_snd_lt m; omega)
    | (have h9 := sizeOf_snd_lt m2; omega)
    | (have h9 := sizeOf_snd_lt head; omega))
end

theorem loads_dumps (j : Json) : Json.loads (Json.dumps j) = some j := by
  have hfuel : jNeed j ≤ 2 * (Json.dumps j).length + 2 := by
    have h1 := jNeed_le_dumps j
    have h2 : (Json.dumps j).length = (dumpsV j).length := by
      simp [Json.dumps, String.length]
    omega
  have h := parseV_dumps j (2 * (Json.dumps j).length + 2) [] hfuel rfl
  rw [List.append_nil] at h
  rw [Json.loads, show (Json.dumps j).data = dumpsV j from rfl, h]
  simp [jSkip]

theorem filter_map_writeChunk (p : Event → Bool) (h4 : ∀ n, p (.writeChunk n) = false)
    (l : List Nat) : (l.map Event.writeChunk).filter p = [] := by
  induction l with
  | nil => rfl
  | cons n ns ih => simp [h4, ih]

theorem filter_ytdlp (env : Env) (url : String) (p : Event → Bool)
    (h1 : ∀ m, p (.stInfo m) = false) (h2 : ∀ m, p (.stError m) = false)
    (h3 : ∀ u f, p (.callYtdlp u f) = false) :
    (download_video_ytdlp env url).2.filter p = [] := by
  unfold download_video_ytdlp
  cases env.ytdlp url <;> simp [h1, h2, h3]

theorem filter_direct (env : Env) (url : String) (p : Event → Bool)
    (h1 : ∀ m, p (.stInfo m) = false) (h2 : ∀ m, p (.stError m) = false)
    (h3 : ∀ u a, p (.httpGet u a) = false) (h4 : ∀ n, p (.writeChunk n) = false) :
    (download_video_direct env url).2.filter p = [] := by
  unfold download_video_direct
  cases env.http url with
  | error e => simp [h1, h2, h3]
  | ok resp =>
    by_cases hs : resp.status_code = 200 <;>
      simp [hs, h1, h2, h3, filter_map_writeChunk p h4]

theorem filter_transcribe (env : Env) (vp : String) (p : Event → Bool)
    (h1 : ∀ m, p (.stInfo m) = false) (h2 : ∀ m, p (.stError m) = false)
    (h3 : p .loadWhisper = false) (h4 : ∀ s, p (.whisperTranscribe s) = false) :
    (transcribe_video env vp).2.filter p = [] := by
  unfold transcribe_video
  cases env.whisperLoad with
  | error e => simp [h1, h2, h3]
  | ok _ =>
    cases env.whisper vp with
    | ok t => simp [h1, h3, h4]
    | error e => simp [h1, h2, h3, h4]

theorem filter_detect (env : Env) (t : String) (p : Event → Bool)
    (h : ∀ s, p (.langdetectCall s) = false) :
    (detect_language env t).2.filter p = [] := by
  unfold detect_language
  cases env.langdetect t <;> simp [h]

theorem filter_generate (env : Env) (t lang : String) (p : Event → Bool)
    (h1 : ∀ m, p (.stInfo m) = false) (h2 : ∀ m, p (.stError m) = false)
    (h3 : ∀ r, p (.anthropicCreate r) = false) :
    (generate_structured_summary env t lang).2.filter p = [] := by
  unfold generate_structured_summary
  dsimp only
  cases env.apiKey with
  | none => simp [h1, h2]
  | some _ =>
    cases env.anthropic (anthropic_request t lang) with
    | error e => simp [h1, h2, h3]
    | ok resp =>
      obtain ⟨content⟩ := resp
      cases content with
      | nil => simp [h1, h2, h3]
      | cons b bs => simp [h1, h3]

theorem filter_acquire (env : Env) (sub : Submission) (p : Event → Bool)
    (hInfo : ∀ m, p (.stInfo m) = false) (hWarn : ∀ m, p (.stWarning m) = false)
    (hError : ∀ m, p (.stError m) = false)
    (hSpin : ∀ m, p (.spinner m) = false) (hSave : ∀ c q, p (.saveUpload c q) = false)
    (hY : ∀ u f, p (.callYtdlp u f) = false) (hG : ∀ u a, p (.httpGet u a) = false)
    (hC : ∀ n, p (.writeChunk n) = false) :
    (acquire env sub).2.filter p = [] := by
  unfold acquire
  cases sub.uploaded_file with
  | some f => simp [hSpin, hSave]
  | none =>
    dsimp only
    split
    · exact filter_ytdlp env sub.video_url p hInfo hError hY
    · simp [List.filter_append, filter_ytdlp env sub.video_url p hInfo hError hY,
        filter_direct env sub.video_url p hInfo hError hG hC, hWarn]

theorem filter_run_from_transcript (env : Env) (vp t : String) (p : Event → Bool)
    (hInfo : ∀ m, p (.stInfo m) = false) (hError : ∀ m, p (.stError m) = false)
    (hSucc : ∀ m, p (.stSuccess m) = false)
    (hD : ∀ s, p (.langdetectCall s) = false)
    (hA : ∀ r, p (.anthropicCreate r) = false) (hU : ∀ s, p (.unlink s) = false) :
    (run_from_transcript env vp t).trace.filter p = [] := by
  unfold run_from_transcript
  dsimp only
  split
  · simp [List.filter_append, filter_detect env t p hD,
      filter_generate env t _ p hInfo hError hA, hSucc, hU]
  · simp [List.filter_append, filter_detect env t p hD,
      filter_generate env t _ p hInfo hError hA]

theorem filter_run_from_video (env : Env) (vp : String) (p : Event → Bool)
    (hInfo : ∀ m, p (.stInfo m) = false) (hError : ∀ m, p (.stError m) = false)
    (hSucc : ∀ m, p (.stSuccess m) = false) (hL : p .loadWhisper = false)
    (hW : ∀ s, p (.whisperTranscribe s) = false)
    (hD : ∀ s, p (.langdetectCall s) = false)
    (hA : ∀ r, p (.anthropicCreate r) = false) (hU : ∀ s, p (.unlink s) = false) :
    (run_from_video env vp).trace.filter p = [] := by
  unfold run_from_video
  dsimp only
  split
  · simp [List.filter_append, filter_transcribe env vp p hInfo hError hL hW,
      filter_run_from_transcript env vp _ p hInfo hError hSucc hD hA hU]
  · simp [List.filter_append, filter_transcribe env vp p hInfo hError hL hW]

theorem main_trace_filter (env : Env) (sub : Submission) (p : Event → Bool)
    (hInfo : ∀ m, p (.stInfo m) = false) (hWarn : ∀ m, p (.stWarning m) = false)
    (hError : ∀ m, p (.stError m) = false) (hSucc : ∀ m, p (.stSuccess m) = false)
    (hSpin : ∀ m, p (.spinner m) = false) (hSave : ∀ c q, p (.saveUpload c q) = false)
    (hY : ∀ u f, p (.callYtdlp u f) = false) (hG : ∀ u a, p (.httpGet u a) = false)
    (hC : ∀ n, p (.writeChunk n) = false) (hL : p .loadWhisper = false)
    (hW : ∀ s, p (.whisperTranscribe s) = false) (hD : ∀ s, p (.langdetectCall s) = false)
    (hA : ∀ r, p (.anthropicCreate r) = false) (hU : ∀ s, p (.unlink s) = false) :
    (main_handler env sub).trace.filter p = [] := by
  have hacq := filter_acquire env sub p hInfo hWarn hError hSpin hSave hY hG hC
  unfold main_handler
  dsimp only
  split
  · split
    · simp [List.filter_append, hacq, filter_run_from_video env _ p hInfo hError hSucc hL hW
        hD hA hU]
    · simp [List.filter_append, hacq, hError]
  · simp

theorem run_from_transcript_video_path (env : Env) (vp t : String) :
    (run_from_transcript env vp t).video_path = some vp := by
  unfold run_from_transcript
  dsimp only
  split <;> rfl

theorem run_from_video_video_path (env : Env) (vp : String) :
    (run_from_video env vp).video_path = some vp := by
  unfold run_from_video
  dsimp only
  split
  · simp [run_from_transcript_video_path]
  · rfl

theorem run_from_transcript_unlink_of_some (env : Env) (vp t : String)
    (h : (run_from_transcript env vp t).animation_script.isSome) :
    Event.unlink vp ∈ (run_from_transcript env vp t).trace := by
  unfold run_from_transcript at h ⊢
  dsimp only at h ⊢
  split at h
  · simp
  · simp at h

theorem run_from_transcript_no_unlink (env : Env) (vp t : String)
    (h : (run_from_transcript env vp t).animation_script = none) :
    (run_from_transcript env vp t).trace.filter Event.isUnlink = [] := by
  unfold run_from_transcript at h ⊢
  dsimp only at h ⊢
  split at h
  · simp at h
  · simp [List.filter_append,
      filter_detect env t Event.isUnlink (fun _ => rfl),
      filter_generate env t _ Event.isUnlink (fun _ => rfl) (fun _ => rfl) (fun _ => rfl)]

theorem run_from_video_unlink_of_some (env : Env) (vp : String)
    (h : (run_from_video env vp).animation_script.isSome) :
    Event.unlink vp ∈ (run_from_video env vp).trace := by
  unfold run_from_video at h ⊢
  dsimp only at h ⊢
  split at h
  · rename_i t heq1 heq2
    simp only [List.mem_append]
    exact Or.inr (run_from_transcript_unlink_of_some env vp t h)
  · simp at h

theorem run_from_video_no_unlink (env : Env) (vp : String)
    (h : (run_from_video env vp).animation_script = none) :
    (run_from_video env vp).trace.filter Event.isUnlink = [] := by
  unfold run_from_video at h ⊢
  dsimp only at h ⊢
  split at h
  · rename_i t heq1 heq2
    simp only [List.filter_append,
      filter_transcribe env vp Event.isUnlink (fun _ => rfl) (fun _ => rfl) rfl (fun _ => rfl),
      List.nil_append]
    exact run_from_transcript_no_unlink env vp t h
  · simp [List.filter_append,
      filter_transcribe env vp Event.isUnlink (fun _ => rfl) (fun _ => rfl) rfl (fun _ => rfl)]

/-- C1 (amended). In src/app.py the os.unlink cleanup sits inside the
if structured_content block, so the temporary media file is removed only when
every stage succeeds. First conjunct: a fully successful run attempts the
unlink of its video path (best effort: the model ignores the unlink outcome,
matching the try/except pass). Second conjunct: any run that ends without a
formatted summary performs no unlink at all. -/
theorem claim_C1_amended (env : Env) (sub : Submission) :
    ((main_handler env sub).animation_script.isSome →
      ∃ vp, (main_handler env sub).video_path = some vp ∧
        Event.unlink vp ∈ (main_handler env sub).trace) ∧
    ((main_handler env sub).animation_script = none →
      (main_handler env sub).trace.filter Event.isUnlink = []) := by
  have hacq := filter_acquire env sub Event.isUnlink (fun _ => rfl) (fun _ => rfl)
    (fun _ => rfl) (fun _ => rfl) (fun _ _ => rfl) (fun _ _ => rfl) (fun _ _ => rfl)
    (fun _ => rfl)
  unfold main_handler
  dsimp only
  split
  · split
    · rename_i vp heq1 heq2
      constructor
      · intro h
        refine ⟨vp, ?_, ?_⟩
        · simp [run_from_video_video_path]
        · simp only [List.mem_append]
          exact Or.inr (run_from_video_unlink_of_some env vp (by simpa using h))
      · intro h
        simp only [List.filter_append, hacq, List.nil_append]
        exact run_from_video_no_unlink env vp (by simpa using h)
    · constructor
      · intro h
        simp at h
      · intro _
        simp [List.filter_append, hacq, Event.isUnlink]
  · constructor
    · intro h
      simp at h
    · intro _
      simp

/-- C1 (counterexample to the claim as stated). A run that acquires the media
handle and then halts at transcription finishes with no unlink event in its
trace, contradicting deletion on every finished run. -/
theorem claim_C1_counterexample :
    (main_handler envC1 ⟨"http://v", none⟩).video_path = some "/tmp/a.mp4" ∧
    (main_handler envC1 ⟨"http://v", none⟩).trace.filter Event.isUnlink = [] ∧
    Event.stError "Error transcribing video: whisper crashed" ∈
      (main_handler envC1 ⟨"http://v", none⟩).trace := by
  decide

/-- Witness for C1 (amended) at a concrete fully successful run. -/
theorem claim_C1_amended_witness :
    ∃ vp, (main_handler envSanity ⟨"http://x", none⟩).video_path = some vp ∧
      Event.unlink vp ∈ (main_handler envSanity ⟨"http://x", none⟩).trace :=
  (claim_C1_amended envSanity ⟨"http://x", none⟩).1 (by decide)

theorem chunkSizes_le (total : Nat) : ∀ n ∈ chunkSizes total, n ≤ chunkSize := by
  intro n hn
  unfold chunkSizes at hn
  rcases List.mem_append.mp hn with hm | hm
  · rw [List.eq_of_mem_replicate hm]
  · split at hm
    · simp at hm
    · simp at hm
      subst hm
      exact le_of_lt (Nat.mod_lt total (by decide))

theorem filter_badChunk_map (l : List Nat) (hb : ∀ n ∈ l, n ≤ chunkSize) :
    (l.map Event.writeChunk).filter badChunk = [] := by
  induction l with
  | nil => rfl
  | cons n ns ih =>
    have h1 : badChunk (.writeChunk n) = false := by
      simp [badChunk]
      exact hb n (by simp)
    simp [h1, ih (fun m hm => hb m (by simp [hm]))]

theorem filter_badChunk_direct (env : Env) (url : String) :
    (download_video_direct env url).2.filter badChunk = [] := by
  unfold download_video_direct
  cases env.http url with
  | error e => rfl
  | ok resp =>
    by_cases hs : resp.status_code = 200 <;>
      simp [hs, badChunk, filter_badChunk_map (chunkSizes resp.body_size)
        (chunkSizes_le resp.body_size)]

theorem filter_badChunk_acquire (env : Env) (sub : Submission) :
    (acquire env sub).2.filter badChunk = [] := by
  unfold acquire
  cases sub.uploaded_file with
  | some f => rfl
  | none =>
    dsimp only
    split
    · exact filter_ytdlp env sub.video_url badChunk (fun _ => rfl) (fun _ => rfl)
        (fun _ _ => rfl)
    · simp [List.filter_append,
        filter_ytdlp env sub.video_url badChunk (fun _ => rfl) (fun _ => rfl) (fun _ _ => rfl),
        filter_badChunk_direct env sub.video_url, badChunk]

theorem filter_badChunk_main (env : Env) (sub : Submission) :
    (main_handler env sub).trace.filter badChunk = [] := by
  unfold main_handler
  dsimp only
  split
  · split
    · simp [List.filter_append, filter_badChunk_acquire env sub,
        filter_run_from_video env _ badChunk (fun _ => rfl) (fun _ => rfl) (fun _ => rfl) rfl
          (fun _ => rfl) (fun _ => rfl) (fun _ => rfl) (fun _ => rfl)]
    · simp [List.filter_append, filter_badChunk_acquire env sub, badChunk]
  · simp

theorem mem_filter_eq_nil {l : List Event} {p : Event → Bool} (h : l.filter p = [])
    {e : Event} (he : e ∈ l) : p e = false := by
  by_contra hc
  have hp : p e = true := by
    cases hpe : p e
    · exact absurd hpe hc
    · rfl
  have : e ∈ l.filter p := List.mem_filter.mpr ⟨he, hp⟩
  rw [h] at this
  simp at this

theorem acquire_calls (env : Env) (url : String) (htmp : env.ytdlpTmp ≠ "") :
    (acquire env ⟨url, none⟩).2.filter Event.isAcqCall =
      match env.ytdlp url with
      | .ok _ => [Event.callYtdlp url "best[ext=mp4]"]
      | .error _ => [Event.callYtdlp url "best[ext=mp4]", Event.httpGet url browserUserAgent] := by
  unfold acquire
  dsimp only
  cases hy : env.ytdlp url with
  | ok _ =>
    simp [download_video_ytdlp, hy, pyTruthyOpt, htmp, Event.isAcqCall]
  | error e =>
    cases hh : env.http url with
    | error e2 =>
      simp [download_video_ytdlp, hy, download_video_direct, hh, pyTruthyOpt,
        Event.isAcqCall, List.filter_append]
    | ok resp =>
      by_cases hs : resp.status_code = 200 <;>
        simp [download_video_ytdlp, hy, download_video_direct, hh, hs, pyTruthyOpt,
          Event.isAcqCall, List.filter_append,
          filter_map_writeChunk Event.isAcqCall (fun _ => rfl)]

/-- C2 (amended). For a URL submission, acquisition calls yt-dlp (format
best[ext=mp4]) first and, only when that yields no file, the direct streamed
HTTP fetch carrying the browser-like User-Agent header; the pytube platform
extractor is never invoked; every chunk written by the direct fetch is at
most 1 MiB (1048576 bytes); and when both methods fail the video path is
null, the direct-download error is shown, and the handler reports that the
video cannot be processed. -/
theorem claim_C2_amended (env : Env) (url : String) (hurl : url ≠ "")
    (htmp : env.ytdlpTmp ≠ "") :
    ((main_handler env ⟨url, none⟩).trace.filter Event.isAcqCall =
      match env.ytdlp url with
      | .ok _ => [Event.callYtdlp url "best[ext=mp4]"]
      | .error _ => [Event.callYtdlp url "best[ext=mp4]", Event.httpGet url browserUserAgent]) ∧
    ((main_handler env ⟨url, none⟩).trace.filter Event.isPytube = []) ∧
    (∀ n, Event.writeChunk n ∈ (main_handler env ⟨url, none⟩).trace → n ≤ 1024 * 1024) ∧
    (∀ e1 e2, env.ytdlp url = .error e1 → env.http url = .error e2 →
      (main_handler env ⟨url, none⟩).video_path = none ∧
      Event.stError ("Error with direct download: " ++ e2) ∈
        (main_handler env ⟨url, none⟩).trace ∧
      Event.stError
          "Unable to process the video. Please check the URL or try uploading the file directly."
        ∈ (main_handler env ⟨url, none⟩).trace) := by
  refine ⟨?_, ?_, ?_, ?_⟩
  · rw [← acquire_calls env url htmp]
    unfold main_handler
    dsimp only
    rw [if_pos (Or.inl hurl)]
    split
    · simp [List.filter_append,
        filter_run_from_video env _ Event.isAcqCall (fun _ => rfl) (fun _ => rfl) (fun _ => rfl)
          rfl (fun _ => rfl) (fun _ => rfl) (fun _ => rfl) (fun _ => rfl)]
    · simp [List.filter_append, Event.isAcqCall]
  · exact main_trace_filter env ⟨url, none⟩ Event.isPytube (fun _ => rfl) (fun _ => rfl)
      (fun _ => rfl) (fun _ => rfl) (fun _ => rfl) (fun _ _ => rfl) (fun _ _ => rfl)
      (fun _ _ => rfl) (fun _ => rfl) rfl (fun _ => rfl) (fun _ => rfl) (fun _ => rfl)
      (fun _ => rfl)
  · intro n hn
    have hb := mem_filter_eq_nil (filter_badChunk_main env ⟨url, none⟩) hn
    simp [badChunk, chunkSize] at hb
    exact hb
  · intro e1 e2 hy hh
    unfold main_handler
    dsimp only
    rw [if_pos (Or.inl hurl)]
    have hacq : acquire env ⟨url, none⟩ =
        (none, [Event.stInfo "Downloading video...", Event.callYtdlp url "best[ext=mp4]",
          Event.stError ("Error downloading video with yt-dlp: " ++ e1),
          Event.stWarning "Primary download method failed. Trying alternative method...",
          Event.stInfo "Attempting direct download...", Event.httpGet url browserUserAgent,
          Event.stError ("Error with direct download: " ++ e2)]) := by
      unfold acquire download_video_ytdlp download_video_direct
      simp [hy, hh, pyTruthyOpt]
    rw [hacq]
    simp [pyTruthyOpt]

/-- C2 (counterexample to the claim as stated). The first acquisition
attempt for a URL is the yt-dlp call and no pytube platform-extractor call
appears anywhere in the trace, contradicting the claimed order in which a
platform extractor is tried before the robust extraction tool. -/
theorem claim_C2_counterexample :
    ((main_handler envC2 ⟨"http://v.example/a", none⟩).trace.filter Event.isAcqCall).head? =
      some (Event.callYtdlp "http://v.example/a" "best[ext=mp4]") ∧
    (main_handler envC2 ⟨"http://v.example/a", none⟩).trace.filter Event.isPytube = [] ∧
    (main_handler envC2 ⟨"http://v.example/a", none⟩).video_path = none := by
  decide

/-- Witness for C2 (amended) at a concrete environment whose yt-dlp call
succeeds. -/
theorem claim_C2_amended_witness :
    (main_handler envSanity ⟨"http://x", none⟩).trace.filter Event.isAcqCall =
      [Event.callYtdlp "http://x" "best[ext=mp4]"] := by
  have h := (claim_C2_amended envSanity "http://x" (by decide) (by decide)).1
  exact h

/-- C3. In the verification-enabled transcription variant (the first,
shadowed transcribe_video of src/app.py lines 119-160), a media file whose
ffmpeg probe output names no audio stream makes transcription return a null
transcript together with the specific no-audio error message, and no whisper
model load or transcribe call is ever made. -/
theorem claim_C3 (env : Env) (vp stderrText : String)
    (hp : env.ffprobe vp = .ok stderrText)
    (h1 : strContains stderrText "Stream #0:1" = false)
    (h2 : strContains stderrText "Audio" = false) :
    (transcribe_video_v1 env vp).1 = none ∧
    Event.stError "No audio stream found in the video file. Cannot transcribe." ∈
      (transcribe_video_v1 env vp).2 ∧
    (∀ e ∈ (transcribe_video_v1 env vp).2, Event.isWhisperCall e = false) := by
  have hva : verify_audio_exists env vp = (false, [.ffmpegProbe vp]) := by
    unfold verify_audio_exists
    simp [hp, h1, h2]
  unfold transcribe_video_v1
  dsimp only
  rw [hva]
  refine ⟨rfl, by simp, ?_⟩
  intro e he
  simp at he
  rcases he with h | h | h <;> simp [h, Event.isWhisperCall]

/-- Witness for C3 at a concrete probe output with no audio markers. -/
theorem claim_C3_witness :
    (transcribe_video_v1 envC3 "/tmp/a.mp4").1 = none ∧
    Event.stError "No audio stream found in the video file. Cannot transcribe." ∈
      (transcribe_video_v1 envC3 "/tmp/a.mp4").2 ∧
    (∀ e ∈ (transcribe_video_v1 envC3 "/tmp/a.mp4").2, Event.isWhisperCall e = false) :=
  claim_C3 envC3 "/tmp/a.mp4" "only a video track" rfl (by decide) (by decide)

/-- C4. Language detection returns the detector code on success and the
fixed default code en on any detector failure, and its trace carries no error
message, so this stage never halts the pipeline. Totality of detect_language
models the bare except of src/app.py lines 180-184. -/
theorem claim_C4 (env : Env) (text : String) :
    (∀ c, env.langdetect text = .ok c → (detect_language env text).1 = c) ∧
    (∀ e, env.langdetect text = .error e → (detect_language env text).1 = "en") ∧
    (∀ ev ∈ (detect_language env text).2, Event.isErrorMsg ev = false) := by
  refine ⟨?_, ?_, ?_⟩
  · intro c hc
    simp [detect_language, hc]
  · intro e he
    simp [detect_language, he]
  · intro ev hev
    exact mem_filter_eq_nil (filter_detect env text Event.isErrorMsg (fun _ => rfl)) hev

/-- Witness for C4 at a detector that fails on the empty string. -/
theorem claim_C4_witness : (detect_language envC4 "").1 = "en" :=
  (claim_C4 envC4 "").2.1 "No features in text." rfl

/-- C5. When the raw summary string parses as JSON, the formatted summary is
exactly the parsed value, and serializing that value back to text and parsing
it again returns a structurally equal (identical) value: Json.loads after
Json.dumps is the identity on parsed values. -/
theorem claim_C5 (s : String) (c : Json) (h : Json.loads s = some c) :
    format_for_animation s = .parsed c ∧ Json.loads (Json.dumps c) = some c := by
  constructor
  · simp [format_for_animation, h]
  · exact loads_dumps c

/-- Witness for C5 on a concrete JSON array literal. -/
theorem claim_C5_witness :
    format_for_animation "[1, 2]" = .parsed (.arr [.num 1, .num 2]) ∧
    Json.loads (Json.dumps (Json.arr [.num 1, .num 2])) = some (.arr [.num 1, .num 2]) :=
  claim_C5 "[1, 2]" (.arr [.num 1, .num 2]) rfl

/-- C6. When the raw summary string does not parse as JSON, the formatted
summary is the original string unchanged; format_for_animation treats this
case as an ordinary outcome, not an error. -/
theorem claim_C6 (s : String) (h : Json.loads s = none) :
    format_for_animation s = .text s := by
  simp [format_for_animation, h]

/-- Witness for C6 on a concrete plain-text string. -/
theorem claim_C6_witness :
    format_for_animation "A plain text summary." = .text "A plain text summary." :=
  claim_C6 "A plain text summary." rfl

/-- C8. The string 3 parses as JSON, so result formatting returns the parsed
number, which is neither a structured mapping nor the original string: a
third output shape beyond the two the data model lists. -/
theorem claim_C8 :
    format_for_animation "3" = .parsed (.num 3) ∧
    Json.is_mapping (Json.num 3) = false ∧
    FormattedSummary.parsed (.num 3) ≠ FormattedSummary.text "3" := by
  refine ⟨rfl, rfl, ?_⟩
  intro h
  exact FormattedSummary.noConfusion h

theorem gen_calls (env : Env) (t lang : String) :
    (generate_structured_summary env t lang).2.filter Event.isAnthropicCall =
      match env.apiKey with
      | none => []
      | some _ => [Event.anthropicCreate (anthropic_request t lang)] := by
  unfold generate_structured_summary
  dsimp only
  cases env.apiKey with
  | none => rfl
  | some k =>
    cases env.anthropic (anthropic_request t lang) with
    | error e => simp [Event.isAnthropicCall]
    | ok resp =>
      obtain ⟨content⟩ := resp
      cases content <;> simp [Event.isAnthropicCall]

theorem rft_anth_le (env : Env) (vp t : String) :
    ((run_from_transcript env vp t).trace.filter Event.isAnthropicCall).length ≤ 1 := by
  unfold run_from_transcript
  dsimp only
  split <;>
    (simp [List.filter_append, filter_detect env t Event.isAnthropicCall (fun _ => rfl),
      gen_calls, Event.isAnthropicCall]
     cases env.apiKey <;> simp)

theorem rfv_anth_le (env : Env) (vp : String) :
    ((run_from_video env vp).trace.filter Event.isAnthropicCall).length ≤ 1 := by
  unfold run_from_video
  dsimp only
  split
  · rename_i t heq1 heq2
    simp only [List.filter_append,
      filter_transcribe env vp Event.isAnthropicCall (fun _ => rfl) (fun _ => rfl) rfl
        (fun _ => rfl), List.nil_append, List.length_append]
    simpa using rft_anth_le env vp t
  · simp [filter_transcribe env vp Event.isAnthropicCall (fun _ => rfl) (fun _ => rfl) rfl
      (fun _ => rfl)]

theorem main_anth_le (env : Env) (sub : Submission) :
    ((main_handler env sub).trace.filter Event.isAnthropicCall).length ≤ 1 := by
  have hacq := filter_acquire env sub Event.isAnthropicCall (fun _ => rfl) (fun _ => rfl)
    (fun _ => rfl) (fun _ => rfl) (fun _ _ => rfl) (fun _ _ => rfl) (fun _ _ => rfl)
    (fun _ => rfl)
  unfold main_handler
  dsimp only
  split
  · split
    · rename_i vp heq1 heq2
      simp only [List.filter_append, hacq, List.nil_append]
      exact rfv_anth_le env vp
    · simp [List.filter_append, hacq, Event.isAnthropicCall]
  · simp

theorem rft_struct_none (env : Env) (vp t : String)
    (h : (run_from_transcript env vp t).structured_content = none) :
    (run_from_transcript env vp t).animation_script = none := by
  unfold run_from_transcript at h ⊢
  dsimp only at h ⊢
  split at h
  · simp at h
  · rfl

theorem rfv_struct_none (env : Env) (vp : String)
    (h : (run_from_video env vp).structured_content = none) :
    (run_from_video env vp).animation_script = none := by
  unfold run_from_video at h ⊢
  dsimp only at h ⊢
  split at h
  · rename_i t heq1 heq2
    exact rft_struct_none env vp t h
  · rfl

/-- C7. Summary generation performs at most one API request per call and
exactly one whenever a credential is present; the request uses max_tokens
4000, temperature 3/10 and the fixed model name; a service error yields a
null result and a surfaced error; a successful response yields the text of
the first content block; at the main level a null structured summary means no
formatted summary is produced, and a whole run carries at most one request,
so no retry ever happens. -/
theorem claim_C7 (env : Env) (t lang : String) :
    (((generate_structured_summary env t lang).2.filter Event.isAnthropicCall).length ≤ 1) ∧
    (env.apiKey.isSome →
      (generate_structured_summary env t lang).2.filter Event.isAnthropicCall =
        [Event.anthropicCreate (anthropic_request t lang)]) ∧
    ((anthropic_request t lang).max_tokens = 4000 ∧
      (anthropic_request t lang).temperature = 3 / 10 ∧
      (anthropic_request t lang).model = "claude-3-sonnet-20240229") ∧
    (∀ e, env.apiKey.isSome → env.anthropic (anthropic_request t lang) = .error e →
      (generate_structured_summary env t lang).1 = none ∧
      Event.stError ("Error generating summary: " ++ e) ∈
        (generate_structured_summary env t lang).2) ∧
    (∀ resp b rest, env.apiKey.isSome → env.anthropic (anthropic_request t lang) = .ok resp →
      resp.content = b :: rest → (generate_structured_summary env t lang).1 = some b.text) ∧
    (∀ sub, (main_handler env sub).structured_content = none →
      (main_handler env sub).animation_script = none) ∧
    (∀ sub, ((main_handler env sub).trace.filter Event.isAnthropicCall).length ≤ 1) := by
  refine ⟨?_, ?_, ⟨rfl, rfl, rfl⟩, ?_, ?_, ?_, fun sub => main_anth_le env sub⟩
  · rw [gen_calls]
    cases env.apiKey <;> simp
  · intro hk
    rw [gen_calls]
    obtain ⟨k, hk2⟩ := Option.isSome_iff_exists.mp hk
    rw [hk2]
  · intro e hk he
    obtain ⟨k, hk2⟩ := Option.isSome_iff_exists.mp hk
    unfold generate_structured_summary
    dsimp only
    rw [hk2, he]
    exact ⟨rfl, by simp⟩
  · intro resp b rest hk hr hc
    obtain ⟨k, hk2⟩ := Option.isSome_iff_exists.mp hk
    unfold generate_structured_summary
    dsimp only
    rw [hk2]
    dsimp only
    rw [hr]
    dsimp only
    rw [hc]
  · intro sub h
    unfold main_handler at h ⊢
    dsimp only at h ⊢
    by_cases hcond : (sub.video_url ≠ "" ∨ sub.uploaded_file.isSome = true)
    · rw [if_pos hcond] at h ⊢
      rcases hae : (acquire env sub).1 with _ | vp
      · rfl
      · rw [hae] at h
        cases hpt : pyTruthyOpt (some vp)
        · rfl
        · rw [hpt] at h
          exact rfv_struct_none env vp h
    · rw [if_neg hcond] at h ⊢

/-- Witness for C7 at a concrete environment holding a credential. -/
theorem claim_C7_witness :
    (generate_structured_summary envSanity "hello world" "en").2.filter Event.isAnthropicCall =
      [Event.anthropicCreate (anthropic_request "hello world" "en")] :=
  (claim_C7 envSanity "hello world" "en").2.1 rfl

theorem acquire_upload (env : Env) (url f : String) :
    acquire env ⟨url, some f⟩ =
      (some env.uploadTmp,
       [.spinner "Saving uploaded video...", .saveUpload f env.uploadTmp]) := rfl

/-- C9. When a submission carries both a URL and an uploaded file, the
uploaded file wins: the video path is the upload temporary file, the upload
bytes are saved there, and no download call of any kind (pytube, yt-dlp or
direct HTTP) appears anywhere in the trace. -/
theorem claim_C9 (env : Env) (url f : String) :
    (main_handler env ⟨url, some f⟩).video_path = some env.uploadTmp ∧
    Event.saveUpload f env.uploadTmp ∈ (main_handler env ⟨url, some f⟩).trace ∧
    (∀ e ∈ (main_handler env ⟨url, some f⟩).trace, Event.isAcqCall e = false) := by
  have hfilter : (main_handler env ⟨url, some f⟩).trace.filter Event.isAcqCall = [] := by
    unfold main_handler
    dsimp only
    rw [if_pos (show url ≠ "" ∨ (some f).isSome = true from Or.inr rfl)]
    rw [acquire_upload env url f]
    dsimp only
    cases hpt : pyTruthyOpt (some env.uploadTmp)
    · simp [Event.isAcqCall]
    · simp [Event.isAcqCall, List.filter_append,
        filter_run_from_video env env.uploadTmp Event.isAcqCall (fun _ => rfl) (fun _ => rfl)
          (fun _ => rfl) rfl (fun _ => rfl) (fun _ => rfl) (fun _ => rfl) (fun _ => rfl)]
  refine ⟨?_, ?_, fun e he => mem_filter_eq_nil hfilter he⟩
  · unfold main_handler
    dsimp only
    rw [if_pos (show url ≠ "" ∨ (some f).isSome = true from Or.inr rfl)]
    rw [acquire_upload env url f]
    dsimp only
    cases hpt : pyTruthyOpt (some env.uploadTmp)
    · rfl
    · simp [run_from_video_video_path]
  · unfold main_handler
    dsimp only
    rw [if_pos (show url ≠ "" ∨ (some f).isSome = true from Or.inr rfl)]
    rw [acquire_upload env url f]
    dsimp only
    cases hpt : pyTruthyOpt (some env.uploadTmp)
    · simp
    · simp

theorem rft_transcript (env : Env) (vp t : String) :
    (run_from_transcript env vp t).transcript = some t := by
  unfold run_from_transcript
  dsimp only
  split <;> rfl

theorem rfv_empty_transcript (env : Env) (vp : String)
    (h : (run_from_video env vp).transcript = some "") :
    (run_from_video env vp).structured_content = none ∧
    (run_from_video env vp).animation_script = none ∧
    (run_from_video env vp).trace.filter Event.isDetectCall = [] ∧
    (run_from_video env vp).trace.filter Event.isAnthropicCall = [] := by
  unfold run_from_video at h ⊢
  dsimp only at h ⊢
  split at h
  · rename_i t heq1 heq2
    rw [rft_transcript env vp t] at h
    rw [heq1] at heq2
    simp [pyTruthyOpt] at heq2
    simp at h
    exact absurd h heq2
  · refine ⟨rfl, rfl, ?_, ?_⟩
    · exact filter_transcribe env vp Event.isDetectCall (fun _ => rfl) (fun _ => rfl) rfl
        (fun _ => rfl)
    · exact filter_transcribe env vp Event.isAnthropicCall (fun _ => rfl) (fun _ => rfl) rfl
        (fun _ => rfl)

/-- C10. A run whose transcription succeeds with the empty string halts
there: the structured content and the formatted summary stay null and no
language-detection or generation call appears in the trace, because the form
handler tests the transcript for Python truthiness, under which the empty
string is false. -/
theorem claim_C10 (env : Env) (sub : Submission)
    (h : (main_handler env sub).transcript = some "") :
    (main_handler env sub).structured_content = none ∧
    (main_handler env sub).animation_script = none ∧
    (main_handler env sub).trace.filter Event.isDetectCall = [] ∧
    (main_handler env sub).trace.filter Event.isAnthropicCall = [] := by
  have hacqD := filter_acquire env sub Event.isDetectCall (fun _ => rfl) (fun _ => rfl)
    (fun _ => rfl) (fun _ => rfl) (fun _ _ => rfl) (fun _ _ => rfl) (fun _ _ => rfl)
    (fun _ => rfl)
  have hacqA := filter_acquire env sub Event.isAnthropicCall (fun _ => rfl) (fun _ => rfl)
    (fun _ => rfl) (fun _ => rfl) (fun _ _ => rfl) (fun _ _ => rfl) (fun _ _ => rfl)
    (fun _ => rfl)
  unfold main_handler at h ⊢
  dsimp only at h ⊢
  by_cases hcond : (sub.video_url ≠ "" ∨ sub.uploaded_file.isSome = true)
  · rw [if_pos hcond] at h ⊢
    rcases hae : (acquire env sub).1 with _ | vp
    · rw [hae] at h
      simp at h
    · rw [hae] at h
      cases hpt : pyTruthyOpt (some vp)
      · rw [hpt] at h
        simp at h
      · rw [hpt] at h
        have hr := rfv_empty_transcript env vp h
        refine ⟨hr.1, hr.2.1, ?_, ?_⟩
        · simp [List.filter_append, hacqD, hr.2.2.1]
        · simp [List.filter_append, hacqA, hr.2.2.2]
  · rw [if_neg hcond] at h
    simp at h

/-- Witness for C9 at a concrete environment and upload, discharging the
membership hypothesis of the last conjunct at a concrete trace element. -/
theorem claim_C9_witness :
    (main_handler envSanity ⟨"http://both", some "uploaded-bytes"⟩).video_path =
      some "/tmp/c.mp4" ∧
    Event.saveUpload "uploaded-bytes" "/tmp/c.mp4" ∈
      (main_handler envSanity ⟨"http://both", some "uploaded-bytes"⟩).trace ∧
    Event.isAcqCall (Event.spinner "Saving uploaded video...") = false :=
  ⟨(claim_C9 envSanity "http://both" "uploaded-bytes").1,
   (claim_C9 envSanity "http://both" "uploaded-bytes").2.1,
   (claim_C9 envSanity "http://both" "uploaded-bytes").2.2
     (Event.spinner "Saving uploaded video...") (by decide)⟩

/-- Witness for C10: a concrete run whose transcription returns the empty
string, with the hypothesis discharged by evaluation. -/
theorem claim_C10_witness :
    (main_handler envC10 ⟨"", some "silent-clip"⟩).structured_content = none ∧
    (main_handler envC10 ⟨"", some "silent-clip"⟩).animation_script = none :=
  ⟨(claim_C10 envC10 ⟨"", some "silent-clip"⟩ (by decide)).1,
   (claim_C10 envC10 ⟨"", some "silent-clip"⟩ (by decide)).2.1⟩
